import Mathlib

/-!
Verification development for the daydreamer chess engine core
(src/search.rs, src/bitboard.rs).

Conventions of the shallow embedding:
* Rust machine integers are modelled as `Nat`/`Int`; where wrap-around
  matters (u32 / u64 arithmetic) the reduction modulo `2 ^ 32` / `2 ^ 64`
  is written explicitly.
* A Rust expression that can panic (an array access out of bounds) is
  modelled as an `Option`-valued function; `none` models the panic.
* `Score` is `i32` in spirit; its values here are unbounded `Int`, which is
  faithful because all arithmetic performed on scores stays far away from
  the `i32` range limits.
* `SearchDepth` is `f32` in the source.  The claims under study only
  exercise it at integer values (comparisons with integer constants and
  the product `(d * d) as Score`, exact for integers up to 127), so it is
  modelled as `Int`.
* Modules of the repository that are not under src/ (score, movement,
  options, the macros) are modelled from the spec; each such definition
  carries a doc comment saying so.
-/

/-- Embeds `MAX_PLY` (src/search.rs line 50). -/
def MAX_PLY : Nat := 127

/-- Modelled from the spec: the score module is not under src/.  `MATE_SCORE`
is the magnitude used by `mate_in`/`mated_in`; its concrete value is
immaterial to every claim below, only that it is large. -/
def MATE_SCORE : Int := 32000

/-- Modelled from the spec: `MIN_SCORE` brackets all valid scores from below. -/
def MIN_SCORE : Int := -32001

/-- Modelled from the spec: `MAX_SCORE` brackets all valid scores from above. -/
def MAX_SCORE : Int := 32001

/-- Modelled from the spec: `DRAW_SCORE = 0`. -/
def DRAW_SCORE : Int := 0

/-- Modelled from the spec: `mated_in(k)` encodes being checkmated `k` plies
from the root, the worst score, improving as `k` grows. -/
def mated_in (ply : Nat) : Int := -MATE_SCORE + ply

/-- Modelled from the spec: `mate_in(k)` encodes delivering checkmate `k`
plies from the root, the best score, degrading as `k` grows. -/
def mate_in (ply : Nat) : Int := MATE_SCORE - ply

/-- Modelled from the spec: transposition score-type flag `AT_MOST`
(the stored score is an upper bound).  Tested by bitwise and in the source. -/
def AT_MOST : Nat := 1

/-- Modelled from the spec: transposition score-type flag `AT_LEAST`
(the stored score is a lower bound). -/
def AT_LEAST : Nat := 2

/-- Modelled from the spec: `EXACT` carries both bound bits. -/
def EXACT : Nat := 3

/-- Embeds `score_to_tt` (src/search.rs lines 52-60): mate scores are stored
relative to the current position rather than the root. -/
def score_to_tt (s : Int) (ply : Nat) : Int :=
  if s < mated_in MAX_PLY then s - ply
  else if s > mate_in MAX_PLY then s + ply
  else s

/-- Embeds `score_from_tt` (src/search.rs lines 62-70): the inverse
adjustment applied on probe. -/
def score_from_tt (s : Int) (ply : Nat) : Int :=
  if s < mated_in MAX_PLY then s + ply
  else if s > mate_in MAX_PLY then s - ply
  else s

/-- Embeds `is_quiescence_depth` (src/search.rs lines 45-47). -/
def is_quiescence_depth (sd : Int) : Bool := sd < 1

/-- Embeds `futility_margin` (src/search.rs lines 31-37); the float
arithmetic is exact at the integer depths modelled here. -/
def futility_margin (d : Int) : Int :=
  if is_quiescence_depth d then 65 else 85 + 15 * d + 2 * d * d

/-- Embeds the `movetime != 0` branch of `SearchConstraints::set_timer`
(src/search.rs lines 164-168), returning the pair
(hard_limit, soft_limit) in milliseconds.  `movetime` and the
`time_buffer` option are `u32`, so the subtraction wraps modulo `2 ^ 32`
(release semantics; a debug build panics on underflow).  The `max!` macro
(macros module not under src/) is modelled from the spec as the larger of
its arguments, so `max!(0, x)` on an unsigned value is the identity. -/
def set_timer_movetime (movetime time_buffer : Nat) : Nat × Nat :=
  let wrapped := (movetime % 2 ^ 32 + 2 ^ 32 - time_buffer % 2 ^ 32) % 2 ^ 32
  let hard := max 0 wrapped
  (hard, hard)

/-- Follows the claim text for C7 (refinement reference): hard and soft
limit both equal `movetime - time_buffer` clamped to be at least 0, which
for naturals is truncated subtraction. -/
def set_timer_movetime_clamped (movetime time_buffer : Nat) : Nat × Nat :=
  (movetime - time_buffer, movetime - time_buffer)

/-- Embeds `magic_bishop_index` (src/bitboard.rs lines 310-317) with the
per-square mask and magic passed explicitly (they are initialized at
startup); the multiplication is `u64::wrapping_mul`. -/
def magic_bishop_index (mask magic occ : Nat) : Nat :=
  ((occ &&& mask) * magic) % 2 ^ 64 >>> 55

/-- Embeds `magic_rook_index` (src/bitboard.rs lines 319-326). -/
def magic_rook_index (mask magic occ : Nat) : Nat :=
  ((occ &&& mask) * magic) % 2 ^ 64 >>> 52

/-- Attack-table row size for bishops (src/bitboard.rs line 304). -/
def BISHOP_TABLE_SIZE : Nat := 512

/-- Attack-table row size for rooks (src/bitboard.rs line 308). -/
def ROOK_TABLE_SIZE : Nat := 4096

/-- Claim C6: for every score in the valid range and every ply up to
MAX_PLY, storing a score into the transposition table and reading it back
round-trips: score_from_tt (score_to_tt s p) p = s. -/
theorem c6_score_tt_roundtrip (s : Int) (ply : Nat)
    (hlo : MIN_SCORE < s) (hhi : s < MAX_SCORE) (hply : ply ≤ MAX_PLY) :
    score_from_tt (score_to_tt s ply) ply = s := by
  simp only [score_to_tt, score_from_tt, mated_in, mate_in, MIN_SCORE,
    MAX_SCORE, MATE_SCORE, MAX_PLY] at *
  split_ifs <;> omega

/-- Witness for C6 at score 100 and ply 5. -/
theorem c6_score_tt_roundtrip_w :
    MIN_SCORE < (100 : Int) ∧ (100 : Int) < MAX_SCORE ∧ 5 ≤ MAX_PLY ∧
    score_from_tt (score_to_tt 100 5) 5 = 100 :=
  ⟨by decide, by decide, by decide,
   c6_score_tt_roundtrip 100 5 (by decide) (by decide) (by decide)⟩

/-- Claim C7: evaluation of the embedded set_timer at movetime 50 ms with a
time_buffer of 100 ms.  The wrapped u32 subtraction makes hard = soft =
4294967246 ms, while the claim (and the spec) require the clamped value 0:
the max with 0 never clamps an unsigned difference. -/
theorem c7_set_timer_movetime_wraps :
    set_timer_movetime 50 100 = (4294967246, 4294967246) ∧
    set_timer_movetime_clamped 50 100 = (0, 0) ∧
    (4294967246 : Nat) ≠ 0 := by
  refine ⟨by decide, by decide, by decide⟩

/-- Claim C10: for every occupancy (and every value the initialized masks
and magics could hold), the bishop magic index is below 512 and the rook
magic index is below 4096, so the attack-table reads in bishop_attacks and
rook_attacks are in bounds. -/
theorem c10_magic_index_bounds (mask magic occ : Nat) :
    magic_bishop_index mask magic occ < BISHOP_TABLE_SIZE ∧
    magic_rook_index mask magic occ < ROOK_TABLE_SIZE := by
  have hb : ((occ &&& mask) * magic) % 2 ^ 64 < 2 ^ 64 :=
    Nat.mod_lt _ (by norm_num)
  constructor
  · simp only [magic_bishop_index, BISHOP_TABLE_SIZE, Nat.shiftRight_eq_div_pow]
    omega
  · simp only [magic_rook_index, ROOK_TABLE_SIZE, Nat.shiftRight_eq_div_pow]
    omega

/-- Modelled from the spec: the movement module is not under src/.  A Move
bundles the fields of the opaque fixed-width encoding that the search
consumes: from- and to-square indices (0..63), the moving-piece index
(0..15, colored piece as used by the history table), the promotion piece
type (NO_PIECE_TYPE when absent), and the capture, castling and en-passant
flags. -/
structure Move where
  fromSq : Nat
  toSq : Nat
  pieceIdx : Nat
  capture : Bool
  promote : Nat
  castle : Bool
  ep : Bool
deriving DecidableEq

/-- Modelled from the spec: the absent-move sentinel `NO_MOVE` (all fields
zero, mirroring the all-zero encoded value). -/
def NO_MOVE : Move := ⟨0, 0, 0, false, 0, false, false⟩

/-- Modelled from the spec: the null-move placeholder `NULL_MOVE`, a second
distinguished sentinel; its field values are an arbitrary encoding distinct
from `NO_MOVE` and from every real move. -/
def NULL_MOVE : Move := ⟨63, 63, 15, false, 0, false, false⟩

/-- Modelled from the spec: piece-type index of the empty promotion. -/
def NO_PIECE_TYPE : Nat := 0

/-- Modelled from the spec: piece-type index of the queen. -/
def QUEEN : Nat := 5

/-- Embeds `SearchData::history_index` (src/search.rs lines 298-300). -/
def history_index (m : Move) : Nat := m.pieceIdx <<< 6 ||| m.toSq

/-- Embeds `MAX_HISTORY` (src/search.rs line 258). -/
def MAX_HISTORY : Int := 10000

/-- Embeds `MIN_HISTORY` (src/search.rs line 259). -/
def MIN_HISTORY : Int := -10000

/-- History and counter-move state of `SearchData` (src/search.rs lines
253-254): the 64*16 history table (a total function here; only indices
below 64*16 are ever touched) and the counter-move table indexed by the
last move piece and to-square. -/
structure HistState where
  history : Nat → Int
  countermoves : Nat → Nat → Move

/-- Embeds `SearchData::record_success` (src/search.rs lines 302-314):
bump the cutoff move history entry by d*d, halve the whole table
(arithmetic shift right, hence `Int.fdiv` by 2) when the entry exceeds
MAX_HISTORY, and store the move as the counter of the last move.
`lastMove` is `pos.last_move()`. -/
def record_success (st : HistState) (lastMove m : Move) (d : Int) : HistState :=
  { history := fun i =>
      let h1 : Nat → Int :=
        fun j => if j = history_index m then st.history j + d * d else st.history j
      if h1 (history_index m) > MAX_HISTORY then
        (if i < 64 * 16 then Int.fdiv (h1 i) 2 else h1 i)
      else h1 i,
    countermoves :=
      if lastMove ≠ NO_MOVE ∧ lastMove ≠ NULL_MOVE then
        fun p t => if p = lastMove.pieceIdx ∧ t = lastMove.toSq then m
                   else st.countermoves p t
      else st.countermoves }

/-- Embeds `SearchData::record_failure` (src/search.rs lines 316-324). -/
def record_failure (st : HistState) (m : Move) (d : Int) : HistState :=
  { history := fun i =>
      let h1 : Nat → Int :=
        fun j => if j = history_index m then st.history j - d * d else st.history j
      if h1 (history_index m) < MIN_HISTORY then
        (if i < 64 * 16 then Int.fdiv (h1 i) 2 else h1 i)
      else h1 i,
    countermoves := st.countermoves }

/-- One call of the history-updating interface, for stating claim C4 over
arbitrary call sequences. -/
inductive HistCall where
  | success (lastMove m : Move) (d : Int)
  | failure (m : Move) (d : Int)

/-- Applies one history call. -/
def applyHistCall (st : HistState) : HistCall → HistState
  | .success lm m d => record_success st lm m d
  | .failure m d => record_failure st m d

/-- Applies a sequence of history calls in order. -/
def applyHistCalls (st : HistState) (l : List HistCall) : HistState :=
  l.foldl applyHistCall st

/-- Embeds the freshly constructed history and counter-move tables of
`SearchData::new` (src/search.rs lines 276-277): all zero / NO_MOVE. -/
def histInit : HistState := ⟨fun _ => 0, fun _ _ => NO_MOVE⟩

/-- Search depth argument of a history call. -/
def histCallDepth : HistCall → Int
  | .success _ _ d => d
  | .failure _ d => d

/-- Move argument of a history call. -/
def histCallMove : HistCall → Move
  | .success _ m _ => m
  | .failure m _ => m

/-- Helper: the history index of a well-formed move is inside the 64*16 table. -/
lemma hist_index_lt (m : Move) (hp : m.pieceIdx < 16) (ht : m.toSq < 64) :
    history_index m < 64 * 16 := by
  have h1 : m.pieceIdx <<< 6 < 2 ^ 10 := by
    rw [Nat.shiftLeft_eq]
    norm_num
    omega
  have h2 : m.toSq < 2 ^ 10 := by norm_num; omega
  have := Nat.or_lt_two_pow h1 h2
  simpa [history_index] using this

/-- Helper: the arithmetic right shift by one used to rescale the history
table is floor division by two. -/
lemma fdiv2 (x : Int) : Int.fdiv x 2 = x / 2 := Int.fdiv_eq_ediv _ (by norm_num)

/-- Helper: one record_success call keeps every history entry within
plus or minus 16129 = MAX_PLY * MAX_PLY, given depth at most MAX_PLY. -/
lemma record_success_inv (st : HistState) (lm m : Move) (d : Int)
    (hp : m.pieceIdx < 16) (ht : m.toSq < 64)
    (hd0 : 0 ≤ d) (hd : d ≤ 127)
    (hinv : ∀ i, -16129 ≤ st.history i ∧ st.history i ≤ 16129) :
    ∀ i, -16129 ≤ (record_success st lm m d).history i ∧
        (record_success st lm m d).history i ≤ 16129 := by
  have hdd0 : 0 ≤ d * d := mul_nonneg hd0 hd0
  have hdd : d * d ≤ 16129 := by nlinarith
  have hidx := hist_index_lt m hp ht
  intro i
  have hi := hinv i
  have hx := hinv (history_index m)
  simp only [record_success, MAX_HISTORY]
  rcases eq_or_ne i (history_index m) with hieq | hieq
  · subst hieq
    split_ifs <;> (try rw [fdiv2]) <;> omega
  · split_ifs <;> (try rw [fdiv2]) <;> omega

/-- Helper: the record_failure analogue of record_success_inv. -/
lemma record_failure_inv (st : HistState) (m : Move) (d : Int)
    (hp : m.pieceIdx < 16) (ht : m.toSq < 64)
    (hd0 : 0 ≤ d) (hd : d ≤ 127)
    (hinv : ∀ i, -16129 ≤ st.history i ∧ st.history i ≤ 16129) :
    ∀ i, -16129 ≤ (record_failure st m d).history i ∧
        (record_failure st m d).history i ≤ 16129 := by
  have hdd0 : 0 ≤ d * d := mul_nonneg hd0 hd0
  have hdd : d * d ≤ 16129 := by nlinarith
  have hidx := hist_index_lt m hp ht
  intro i
  have hi := hinv i
  have hx := hinv (history_index m)
  simp only [record_failure, MIN_HISTORY]
  rcases eq_or_ne i (history_index m) with hieq | hieq
  · subst hieq
    split_ifs <;> (try rw [fdiv2]) <;> omega
  · split_ifs <;> (try rw [fdiv2]) <;> omega

/-- The move used by the C4 counterexample: piece index 1, to-square 0,
history index 64. -/
def c4m : Move := ⟨0, 0, 1, false, 0, false, false⟩

/-- The C4 counterexample call sequence: two successes at depth
d = 127 = MAX_PLY. -/
def c4calls : List HistCall := [.success NO_MOVE c4m 127, .success NO_MOVE c4m 127]

/-- Counterexample for claim C4 as stated: after two record_success calls at
depth 127 (within the claim precondition d at most MAX_PLY), the updated
entry holds 12096, outside the clamp range [-MAX_HISTORY, MAX_HISTORY]:
the single halving triggered on overflow is not enough once d * d exceeds
MAX_HISTORY. -/
theorem c4_history_counterexample :
    (applyHistCalls histInit c4calls).history 64 = 12096 ∧
    ¬ ((applyHistCalls histInit c4calls).history 64 ≤ MAX_HISTORY) ∧
    (∀ c ∈ c4calls, 0 ≤ histCallDepth c ∧ histCallDepth c ≤ 127) := by
  refine ⟨by decide, by decide, by decide⟩

/-- Claim C4 (amended): for every sequence of record_success and
record_failure calls on well-formed moves with depths d between 0 and
MAX_PLY, every history entry stays within plus or minus
16129 = MAX_PLY * MAX_PLY after each call (any prefix of a call sequence is
itself a call sequence).  The original clamp range plus or minus
MAX_HISTORY = 10000 is exceeded, as the counterexample shows. -/
theorem c4_history_bound (l : List HistCall)
    (hd : ∀ c ∈ l, 0 ≤ histCallDepth c ∧ histCallDepth c ≤ 127)
    (hm : ∀ c ∈ l, (histCallMove c).pieceIdx < 16 ∧ (histCallMove c).toSq < 64) :
    ∀ i, -16129 ≤ (applyHistCalls histInit l).history i ∧
        (applyHistCalls histInit l).history i ≤ 16129 := by
  suffices h : ∀ st, (∀ i, -16129 ≤ st.history i ∧ st.history i ≤ 16129) →
      ∀ i, -16129 ≤ (applyHistCalls st l).history i ∧
        (applyHistCalls st l).history i ≤ 16129 by
    exact h histInit (by intro i; simp [histInit])
  induction l with
  | nil => intro st hst; simpa [applyHistCalls] using hst
  | cons c rest ih =>
      intro st hst
      have hdc := hd c (List.mem_cons_self c rest)
      have hmc := hm c (List.mem_cons_self c rest)
      have hstep : ∀ i, -16129 ≤ (applyHistCall st c).history i ∧
          (applyHistCall st c).history i ≤ 16129 := by
        cases c with
        | success lm m d =>
            exact record_success_inv st lm m d hmc.1 hmc.2 hdc.1 hdc.2 hst
        | failure m d =>
            exact record_failure_inv st m d hmc.1 hmc.2 hdc.1 hdc.2 hst
      have hd2 : ∀ x ∈ rest, 0 ≤ histCallDepth x ∧ histCallDepth x ≤ 127 :=
        fun x hx => hd x (List.mem_cons_of_mem c hx)
      have hm2 : ∀ x ∈ rest, (histCallMove x).pieceIdx < 16 ∧ (histCallMove x).toSq < 64 :=
        fun x hx => hm x (List.mem_cons_of_mem c hx)
      have := ih hd2 hm2 (applyHistCall st c) hstep
      simpa [applyHistCalls, List.foldl_cons] using this

/-- Witness for the amended C4 theorem at the concrete two-call sequence,
inspecting the updated entry 64. -/
theorem c4_history_bound_w :
    (∀ c ∈ c4calls, 0 ≤ histCallDepth c ∧ histCallDepth c ≤ 127) ∧
    (∀ c ∈ c4calls, (histCallMove c).pieceIdx < 16 ∧ (histCallMove c).toSq < 64) ∧
    (-16129 ≤ (applyHistCalls histInit c4calls).history 64 ∧
      (applyHistCalls histInit c4calls).history 64 ≤ 16129) :=
  ⟨by decide, by decide, c4_history_bound c4calls (by decide) (by decide) 64⟩

/-- Embeds the rank mask construction of `init_simple_bitboards`
(src/bitboard.rs line 141). -/
def rank_bb (r : Nat) : Nat := 0xff <<< (8 * r)

/-- Embeds the file mask construction (src/bitboard.rs line 142). -/
def file_bb (f : Nat) : Nat := 0x0101010101010101 <<< f

/-- Embeds the neighbor-files mask construction (src/bitboard.rs lines
145-154): the file below when it exists, or the file above when it
exists. -/
def neighbor_files_bb (f : Nat) : Nat :=
  (if 0 < f then file_bb (f - 1) else 0) ||| (if f < 7 then file_bb (f + 1) else 0)

/-- Rank index of a square, `sq.rank().index()` in the source. -/
def rankOfSq (sq : Nat) : Nat := sq / 8

/-- File index of a square, `sq.file().index()` in the source. -/
def fileOfSq (sq : Nat) : Nat := sq % 8

/-- Embeds the loop accumulating `rank_bb[r]` for ranks strictly below the
square (src/bitboard.rs lines 163-165, the black passer ranks). -/
def ranks_below (r : Nat) : Nat :=
  (List.range r).foldl (fun acc k => acc ||| rank_bb k) 0

/-- Embeds the loop accumulating `rank_bb[r]` for ranks strictly above the
square (src/bitboard.rs lines 166-168, the white passer ranks). -/
def ranks_above (r : Nat) : Nat :=
  ((List.range 8).drop (r + 1)).foldl (fun acc k => acc ||| rank_bb k) 0

/-- Embeds the passer mask (src/bitboard.rs lines 163-175): forward ranks
for the side (color 0 is White, moving up), clipped to the own and
neighboring files. -/
def passer_bb (c sq : Nat) : Nat :=
  (if c = 0 then ranks_above (rankOfSq sq) else ranks_below (rankOfSq sq)) &&&
    (file_bb (fileOfSq sq) ||| neighbor_files_bb (fileOfSq sq))

/-- Embeds the in-front mask (src/bitboard.rs lines 172 and 176):
the passer mask restricted to the own file. -/
def in_front_bb (c sq : Nat) : Nat := passer_bb c sq &&& file_bb (fileOfSq sq)

/-- Embeds the outpost mask (src/bitboard.rs lines 173 and 177):
the passer mask restricted to the neighboring files. -/
def outpost_bb (c sq : Nat) : Nat := passer_bb c sq &&& neighbor_files_bb (fileOfSq sq)

/-- Helper: a file mask and its neighbor-files mask share no squares. -/
lemma file_neighbor_disjoint :
    ∀ f : Fin 8, file_bb f.val &&& neighbor_files_bb f.val = 0 := by decide

/-- Claim C9: for every color and square, the outpost and in-front masks
partition the passer mask (their union is the passer mask), and the
in-front mask has no bits on the neighboring files. -/
theorem c9_passer_outpost_shape (c : Fin 2) (s : Fin 64) :
    (outpost_bb c.val s.val ||| in_front_bb c.val s.val = passer_bb c.val s.val) ∧
    in_front_bb c.val s.val &&& neighbor_files_bb (fileOfSq s.val) = 0 := by
  have hfd := file_neighbor_disjoint ⟨fileOfSq s.val, Nat.mod_lt _ (by norm_num)⟩
  constructor
  · apply Nat.eq_of_testBit_eq
    intro i
    simp only [outpost_bb, in_front_bb, passer_bb, Nat.testBit_lor, Nat.testBit_land]
    cases (if c.val = 0 then ranks_above (rankOfSq s.val) else ranks_below (rankOfSq s.val)).testBit i <;>
      cases (file_bb (fileOfSq s.val)).testBit i <;>
      cases (neighbor_files_bb (fileOfSq s.val)).testBit i <;> rfl
  · apply Nat.eq_of_testBit_eq
    intro i
    have h2 : ((file_bb (fileOfSq s.val)).testBit i &&
        (neighbor_files_bb (fileOfSq s.val)).testBit i) = false := by
      rw [← Nat.testBit_land, hfd]
      exact Nat.zero_testBit i
    simp only [in_front_bb, passer_bb, Nat.testBit_land, Nat.testBit_lor, Nat.zero_testBit]
    rcases Bool.eq_false_or_eq_true ((file_bb (fileOfSq s.val)).testBit i) with hf | hf <;>
      rcases Bool.eq_false_or_eq_true ((neighbor_files_bb (fileOfSq s.val)).testBit i) with hn | hn <;>
      simp_all

/-- Embeds `ASPIRE_MARGIN` (src/search.rs line 495); indices at or above the
array length are never read because the source checks the failure counter
against the length first. -/
def aspireMargin : Nat → Int
  | 0 => 10
  | 1 => 35
  | 2 => 75
  | 3 => 300
  | 4 => 600
  | _ => 0

/-- Embeds the aspiration window opening at the top of each deepening
iteration (src/search.rs lines 496-499): for depth above 5 with a single
PV the window is (last_score - 10, last_score + 10) clamped to the valid
score range, otherwise alpha and beta are left as they are. -/
def aspire_init (lastScore : Int) (currentDepth mpv : Nat) (alpha beta : Int) : Int × Int :=
  if 5 < currentDepth ∧ mpv = 1 then
    (max (lastScore - aspireMargin 0) MIN_SCORE, min (lastScore + aspireMargin 0) MAX_SCORE)
  else (alpha, beta)

/-- Outcome of one pass of the aspiration loop body: the early return when
stopping, the break out of the loop, or another pass with the updated
window and failure counters. -/
inductive AspOut where
  | aborted
  | exitLoop (score : Int)
  | next (alpha beta : Int) (cfl cfh : Nat) (lastScore : Int)
deriving DecidableEq

/-- Embeds the aspiration loop body after the root search returned `score`
(src/search.rs lines 501-539): return when should_stop, classify fail-low /
fail-high updating the consecutive counters (each failure zeroes the
opposite counter), break when the score is strictly inside the window, and
widen.  The source runs both widening blocks; they are guarded by the
counters being positive, so only the violated side actually moves, which
the embedding writes directly. -/
def aspire_step (alpha beta : Int) (cfl cfh : Nat) (score : Int) (stop : Bool) : AspOut :=
  if stop then .aborted
  else if score ≤ alpha then
    let cfl2 := cfl + 1
    let alpha2 := if 5 ≤ cfl2 then MIN_SCORE else max (score - aspireMargin cfl2) MIN_SCORE
    .next alpha2 beta cfl2 0 score
  else if score ≥ beta then
    let cfh2 := cfh + 1
    let beta2 := if 5 ≤ cfh2 then MAX_SCORE else min (score + aspireMargin cfh2) MAX_SCORE
    .next alpha beta2 0 cfh2 score
  else .exitLoop score

/-- Claim C3: with current_depth above 5 and multi_pv = 1 the window opens
at (last_score - 10, last_score + 10); a fail-low widens only alpha along
the schedule 35, 75, 300, 600 indexed by the consecutive-failure count and
resets the fail-high counter (symmetrically for fail-high); the 5th
consecutive failure on a side opens that side fully; and (absent a stop)
the loop exits exactly when the score is strictly inside the window. -/
theorem c3_aspiration_window (ls score alpha beta : Int) (cd mpv cfl cfh : Nat) :
    (5 < cd → mpv = 1 → MIN_SCORE ≤ ls - 10 → ls + 10 ≤ MAX_SCORE →
      aspire_init ls cd mpv alpha beta = (ls - 10, ls + 10)) ∧
    (score ≤ alpha → cfl + 1 < 5 → MIN_SCORE ≤ score - aspireMargin (cfl + 1) →
      aspire_step alpha beta cfl cfh score false =
        .next (score - aspireMargin (cfl + 1)) beta (cfl + 1) 0 score) ∧
    (score ≤ alpha → 5 ≤ cfl + 1 →
      aspire_step alpha beta cfl cfh score false = .next MIN_SCORE beta (cfl + 1) 0 score) ∧
    (¬ score ≤ alpha → beta ≤ score → cfh + 1 < 5 → score + aspireMargin (cfh + 1) ≤ MAX_SCORE →
      aspire_step alpha beta cfl cfh score false =
        .next alpha (score + aspireMargin (cfh + 1)) 0 (cfh + 1) score) ∧
    (¬ score ≤ alpha → beta ≤ score → 5 ≤ cfh + 1 →
      aspire_step alpha beta cfl cfh score false = .next alpha MAX_SCORE 0 (cfh + 1) score) ∧
    (aspire_step alpha beta cfl cfh score false = .exitLoop score ↔ alpha < score ∧ score < beta) := by
  refine ⟨?_, ?_, ?_, ?_, ?_, ?_⟩
  · intro h1 h2 h3 h4
    simp only [aspire_init, if_pos (And.intro h1 h2), aspireMargin]
    rw [max_eq_left h3, min_eq_left h4]
  · intro h1 h2 h3
    simp only [aspire_step, if_pos h1, if_neg (by omega : ¬ 5 ≤ cfl + 1)]
    rw [max_eq_left h3]
    rfl
  · intro h1 h2
    simp only [aspire_step, if_pos h1, if_pos h2]
    rfl
  · intro h1 h2 h3 h4
    simp only [aspire_step, if_neg h1, ge_iff_le, if_pos h2,
      if_neg (by omega : ¬ 5 ≤ cfh + 1)]
    rw [min_eq_left h4]
    rfl
  · intro h1 h2 h3
    simp only [aspire_step, if_neg h1, ge_iff_le, if_pos h2, if_pos h3]
    rfl
  · constructor
    · intro h
      by_cases h1 : score ≤ alpha
      · simp [aspire_step, h1] at h
      · by_cases h2 : score ≥ beta
        · simp [aspire_step, h1, h2] at h
        · constructor <;> omega
    · rintro ⟨h1, h2⟩
      simp [aspire_step, not_le.mpr h1, not_le.mpr h2]

/-- Witness for C3: a depth-6 single-PV iteration with last score 0 opens
the window (-10, 10); a fail-low at score -20 widens alpha to -55 leaving
beta alone; and a score 0 inside the window exits the loop. -/
theorem c3_aspiration_window_w :
    aspire_init 0 6 1 MIN_SCORE MAX_SCORE = (-10, 10) ∧
    aspire_step (-10) 10 0 0 (-20) false = .next (-55) 10 1 0 (-20) ∧
    aspire_step (-10) 10 0 0 0 false = .exitLoop 0 := by
  refine ⟨?_, ?_, ?_⟩
  · have h := (c3_aspiration_window 0 0 (-10) 10 6 1 0 0).1
      (by decide) (by decide) (by decide) (by decide)
    exact h.trans (by decide)
  · have h := (c3_aspiration_window 0 (-20) (-10) 10 6 1 0 0).2.1
      (by decide) (by decide) (by decide)
    exact h.trans (by decide)
  · exact ((c3_aspiration_window 0 0 (-10) 10 6 1 0 0).2.2.2.2.2).mpr
      (by constructor <;> decide)

/-- Size of each dimension of the `pv_stack` arrays:
MAX_PLY + 1 = 128 (src/search.rs line 251). -/
def PV_DIM : Nat := MAX_PLY + 1

/-- The principal-variation buffer contents, modelled as a total function;
all writes go through `pvWrite`, which enforces the array bounds. -/
def PvMat := Nat → Nat → Move

/-- Bounds-checked write into `pv_stack`: indexing outside the 128 x 128
arrays is a Rust index panic, modelled as `none`. -/
def pvWrite (pv : PvMat) (i j : Nat) (v : Move) : Option PvMat :=
  if i < PV_DIM ∧ j < PV_DIM then
    some (fun a b => if a = i ∧ b = j then v else pv a b)
  else none

/-- Embeds `SearchData::clear_pv` (src/search.rs lines 326-329): write
NO_MOVE to pv_stack[ply][ply] and then to pv_stack[ply + 1][ply + 1]. -/
def clear_pv (pv : PvMat) (ply : Nat) : Option PvMat :=
  (pvWrite pv ply ply NO_MOVE).bind
    (fun pv1 => pvWrite pv1 (ply + 1) (ply + 1) NO_MOVE)

/-- The all-NO_MOVE pv buffer of `SearchData::new` (src/search.rs line 274). -/
def pv0 : PvMat := fun _ _ => NO_MOVE

/-- Control-flow outcome of the prologue of `search`: an early return, the
delegation to quiesce, or continuation into the body with the (possibly
mate-distance-clamped) window. -/
inductive ProRes where
  | ret (s : Int)
  | quiesceDelegate (alpha beta : Int)
  | cont (alpha beta : Int)
deriving DecidableEq

/-- Embeds the prologue of `search` (src/search.rs lines 599-614): the
clear_pv write (whose out-of-bounds panic is `none`), the should_stop
check, the quiescence delegation when depth < 1, and for non-root nodes
the mate-distance clamp, the mate-distance cutoff, and the draw / max-ply
exits.  `shouldStop` and `isDraw` are the values the environment returns
for `data.should_stop()` and `data.pos.is_draw()`.  The written pv buffer
is dropped: only the bounds behavior of the write matters to the claims. -/
def search_prologue (pv : PvMat) (shouldStop isDraw : Bool) (ply : Nat)
    (alpha beta depth : Int) : Option ProRes :=
  (clear_pv pv ply).bind (fun _ =>
    if shouldStop then some (.ret DRAW_SCORE)
    else if is_quiescence_depth depth then some (.quiesceDelegate alpha beta)
    else if ply = 0 then some (.cont alpha beta)
    else
      let alpha2 := max alpha (mated_in ply)
      let beta2 := min beta (mate_in (ply + 1))
      if alpha2 ≥ beta2 then some (.ret alpha2)
      else if isDraw ∨ ply ≥ MAX_PLY then some (.ret DRAW_SCORE)
      else some (.cont alpha2 beta2))

/-- Embeds `QDEPTH` (src/search.rs line 24). -/
def QDEPTH : Int := 0

/-- A transposition entry as probed by quiesce: stored best move,
position-relative score, score-type bits, stored depth. -/
structure TTEntry where
  m : Move
  score : Int
  scoreType : Nat
  depth : Int
deriving DecidableEq

/-- A record of one `tt.put` call: hash, move, depth, stored score and
bound bits.  The claims only need which writes happened, so the table
itself is not modelled. -/
structure TTPut where
  hash : Nat
  m : Move
  depth : Int
  score : Int
  bound : Nat
deriving DecidableEq

/-- One candidate move of a quiesce frame together with everything the
frame computes or receives about it from the abstracted collaborators:
gives_check (the heuristic from AttackData), the static exchange value,
legality, the score returned by the recursive quiesce call for it, and the
value `should_stop()` returns when polled right after searching it. -/
structure QMove where
  m : Move
  givesCheck : Bool
  seeValue : Int
  legal : Bool
  childScore : Int
  stopAfter : Bool
deriving DecidableEq

/-- Environment of one quiesce frame: what the frame reads from the
position, the evaluator, the transposition table and the move generator.
`stopAtEntry` records the value `should_stop()` would return at frame
entry; the source never reads it, because quiesce has no entry stop check,
which is what claim C2 is about. -/
structure QEnv where
  stopAtEntry : Bool
  isDraw : Bool
  tt : Option TTEntry
  staticEval0 : Int
  inCheck : Bool
  hash : Nat
  moves : List QMove
deriving DecidableEq

/-- Per-frame constants of the quiesce move loop after the head has run:
ply, depth, the clamped beta, the window openness, check status, the
(possibly tt-pulled) static eval, the original alpha and the position
hash. -/
structure QCtx where
  ply : Nat
  depth : Int
  beta : Int
  openWindow : Bool
  inCheck : Bool
  staticEval : Int
  origAlpha : Int
  hash : Nat
deriving DecidableEq

/-- Mutable state of the quiesce move loop: the current alpha, best score
and best move, the record of tt.put calls and update_pv calls performed,
and the number of moves searched.  (The global node counter increments in
lockstep with `numMoves` and is not modelled separately.) -/
structure QState where
  alpha : Int
  bestScore : Int
  bestMove : Move
  ttPuts : List TTPut
  pvUpdates : List (Nat × Move)
  numMoves : Nat
deriving DecidableEq

/-- Embeds the futility prune of the quiesce move loop
(src/search.rs lines 941-945). -/
def q_prune_futility (c : QCtx) (st : QState) (qm : QMove) : Prop :=
  qm.givesCheck = false ∧
  (c.inCheck = false ∨ (qm.m.capture = false ∧ mated_in MAX_PLY < st.bestScore)) ∧
  qm.m.promote ≠ QUEEN ∧
  c.staticEval + qm.seeValue + futility_margin c.depth < st.alpha

instance (c : QCtx) (st : QState) (qm : QMove) : Decidable (q_prune_futility c st qm) := by
  unfold q_prune_futility
  infer_instance

/-- Embeds the negative-SEE prune of the quiesce move loop
(src/search.rs line 946). -/
def q_prune_see (c : QCtx) (qm : QMove) : Prop :=
  c.inCheck = false ∧ qm.seeValue < 0

instance (c : QCtx) (qm : QMove) : Decidable (q_prune_see c qm) := by
  unfold q_prune_see
  infer_instance

/-- Outcome of one pass of the quiesce move loop body: an early return out
of the frame, or continuation with the updated state. -/
inductive QStepRes where
  | ret (s : Int) (st : QState)
  | cont (st : QState)
deriving DecidableEq

/-- State component of a quiesce step outcome. -/
def QStepRes.state : QStepRes → QState
  | .ret _ st => st
  | .cont st => st

/-- Returned score of a quiesce step outcome, when it returns. -/
def QStepRes.retScore : QStepRes → Option Int
  | .ret s _ => some s
  | .cont _ => none

/-- Embeds the body of the quiesce move loop (src/search.rs lines
934-973): the futility prune, the SEE prune, the legality filter, then
do_move / recursive call (whose score the environment supplies) /
undo_move, the post-move should_stop bail-out, and the alpha / beta
bookkeeping with the AT_LEAST tt.put on a cutoff. -/
def quiesce_move_step (c : QCtx) (st : QState) (qm : QMove) : QStepRes :=
  if q_prune_futility c st qm then .cont st
  else if q_prune_see c qm then .cont st
  else if qm.legal = false then .cont st
  else
    let st1 := { st with numMoves := st.numMoves + 1 }
    let score := qm.childScore
    if qm.stopAfter then .ret DRAW_SCORE st1
    else if st1.bestScore < score then
      let st2 := { st1 with bestScore := score, bestMove := qm.m }
      let st3 :=
        if st2.alpha < score then
          { st2 with
            alpha := score,
            pvUpdates :=
              if c.openWindow then st2.pvUpdates ++ [(c.ply, qm.m)] else st2.pvUpdates }
        else st2
      if score ≥ c.beta then
        .ret c.beta { st3 with ttPuts := st3.ttPuts ++
          [⟨c.hash, qm.m, QDEPTH, score_to_tt score c.ply, AT_LEAST⟩] }
      else .cont st3
    else .cont st1

/-- Embeds the epilogue of quiesce (src/search.rs lines 974-983): the
checkmate detection when no move was searched while in check, and the
final tt.put. -/
def quiesce_finish (c : QCtx) (st : QState) : Int × QState :=
  let best := if st.numMoves = 0 ∧ c.inCheck then mated_in c.ply else st.bestScore
  (best,
   { st with
     bestScore := best,
     ttPuts := st.ttPuts ++
       [⟨c.hash, st.bestMove, QDEPTH, score_to_tt best c.ply,
         if best ≤ c.origAlpha then AT_MOST else EXACT⟩] })

/-- Runs the quiesce move loop over the candidate moves and then the
epilogue. -/
def quiesce_loop (c : QCtx) (st : QState) : List QMove → Int × QState
  | [] => quiesce_finish c st
  | qm :: rest =>
    match quiesce_move_step c st qm with
    | .ret s st2 => (s, st2)
    | .cont st2 => quiesce_loop c st2 rest

/-- Embeds the head of quiesce before the move loop (src/search.rs lines
879-933): the mate-distance clamp and cutoff, the draw and max-ply exits,
the transposition probe with its zero-window cutoff, and the stand-pat
block that can raise alpha, pull best_score toward the tt score, and
return beta outright.  Early returns carry a state with empty event lists
(the source performs no writes on those paths). -/
def quiesce_head (env : QEnv) (ply : Nat) (alpha beta depth : Int) :
    Sum (Int × QState) (QCtx × QState) :=
  let alpha1 := max alpha (mated_in ply)
  let beta1 := min beta (mate_in (ply + 1))
  if alpha1 ≥ beta1 then .inl (alpha1, ⟨alpha1, MIN_SCORE, NO_MOVE, [], [], 0⟩)
  else if env.isDraw then .inl (DRAW_SCORE, ⟨alpha1, MIN_SCORE, NO_MOVE, [], [], 0⟩)
  else if ply ≥ MAX_PLY then .inl (DRAW_SCORE, ⟨alpha1, MIN_SCORE, NO_MOVE, [], [], 0⟩)
  else
    let openWindow := beta1 - alpha1 > 1
    let ttScore := match env.tt with
      | some e => score_from_tt e.score ply
      | none => MIN_SCORE
    let ttType := match env.tt with
      | some e => e.scoreType
      | none => 0
    let ttDepth := match env.tt with
      | some e => e.depth
      | none => 0
    if ¬ openWindow ∧ env.tt.isSome ∧ depth ≤ ttDepth ∧
        ((ttScore ≥ beta1 ∧ ttType &&& AT_LEAST ≠ 0) ∨
         (ttScore ≤ alpha1 ∧ ttType &&& AT_MOST ≠ 0)) then
      .inl (ttScore, ⟨alpha1, MIN_SCORE, NO_MOVE, [], [], 0⟩)
    else if env.inCheck then
      (.inr (⟨ply, depth, beta1, openWindow, env.inCheck, env.staticEval0, alpha1, env.hash⟩,
             ⟨alpha1, MIN_SCORE, NO_MOVE, [], [], 0⟩))
    else if env.staticEval0 ≥ alpha1 then
      let pulled := ttScore ≠ MIN_SCORE ∧
        ((ttScore > env.staticEval0 ∧ ttType &&& AT_LEAST ≠ 0) ∨
         (ttScore < env.staticEval0 ∧ ttType &&& AT_MOST ≠ 0))
      let best2 := if pulled then ttScore else env.staticEval0
      let eval2 := if pulled then ttScore else env.staticEval0
      if best2 ≥ beta1 then
        .inl (beta1, ⟨env.staticEval0, best2, NO_MOVE, [], [], 0⟩)
      else
        (.inr (⟨ply, depth, beta1, openWindow, env.inCheck, eval2, alpha1, env.hash⟩,
               ⟨env.staticEval0, best2, NO_MOVE, [], [], 0⟩))
    else
      (.inr (⟨ply, depth, beta1, openWindow, env.inCheck, env.staticEval0, alpha1, env.hash⟩,
             ⟨alpha1, env.staticEval0, NO_MOVE, [], [], 0⟩))

/-- Assembles one quiesce frame (src/search.rs lines 879-984): the
clear_pv write (out-of-bounds panic modelled as `none`), the head, and
the move loop with epilogue.  Returns the frame result and the event
record. -/
def quiesce_frame (pv : PvMat) (env : QEnv) (ply : Nat)
    (alpha beta depth : Int) : Option (Int × QState) :=
  (clear_pv pv ply).bind (fun _ =>
    match quiesce_head env ply alpha beta depth with
    | .inl r => some r
    | .inr (c, st) => some (quiesce_loop c st env.moves))

/-- Per-node constants of the search move loop: ply, the (fractional)
depth, beta, window openness, the check status of the node, the move the
opponent just made (`pos.last_move()`, used for the counter-move table),
and the position hash. -/
structure SCtx where
  ply : Nat
  depth : Int
  beta : Int
  openWindow : Bool
  inCheck : Bool
  lastMove : Move
  hash : Nat

/-- Mutable state of the search move loop: alpha, best score and move, the
killers of this ply, the history / counter-move tables, the record of
tt.put and update_pv calls, the searched-move counter, and the
searched-quiets buffer (capped at 127 entries as in the source).  (The
global node counter increments in lockstep with `searchedMoves` and is not
modelled separately.) -/
structure SState where
  alpha : Int
  bestScore : Int
  bestMove : Move
  killer0 : Move
  killer1 : Move
  hist : HistState
  ttPuts : List TTPut
  pvUpdates : List (Nat × Move)
  searchedMoves : Nat
  searchedQuiets : List Move

/-- Outcome of one pass of the search move loop body for a searched move:
an early return out of the frame, or continuation with the updated
state. -/
inductive SStepRes where
  | ret (s : Int) (st : SState)
  | cont (st : SState)

/-- State component of a search step outcome. -/
def SStepRes.state : SStepRes → SState
  | .ret _ st => st
  | .cont st => st

/-- Returned score of a search step outcome, when it returns. -/
def SStepRes.retScore : SStepRes → Option Int
  | .ret s _ => some s
  | .cont _ => none

/-- Embeds the body of the search move loop for a move that passes the
pruning filters and the legality check (src/search.rs lines 780-861):
do_move, the counter increments, the recursive search (whose final score
the environment supplies as `score`; the LMR / re-search ladder only
determines that value), undo_move, the append to searched_quiets (capped
at 127), the post-move should_stop bail-out, and the
alpha / beta / killer / history / counter-move / transposition bookkeeping
of lines 839-861.  Root-only bookkeeping (lines 820-837) is outside this
non-root embedding.  `quiet_move` is from line 743 and the cutoff
condition from line 847.  In the cutoff block the searched-quiets count is
at least one (the cutoff move is quiet, so it was just appended unless the
buffer was already full at 127), matching the `0..count-1` loop of the
source. -/
def search_move_step (c : SCtx) (st : SState) (m : Move) (score : Int)
    (stopAfter : Bool) : SStepRes :=
  let st1 := { st with searchedMoves := st.searchedMoves + 1 }
  let st2 :=
    if (m.capture = false ∧ m.promote ≠ QUEEN) ∧ st1.searchedQuiets.length < 127 then
      { st1 with searchedQuiets := st1.searchedQuiets ++ [m] }
    else st1
  if stopAfter then .ret DRAW_SCORE st2
  else if st2.bestScore < score then
    let st3 := { st2 with bestScore := score, bestMove := m }
    let st4 :=
      if st3.alpha < score then
        { st3 with
          alpha := score,
          pvUpdates :=
            if c.openWindow then st3.pvUpdates ++ [(c.ply, m)] else st3.pvUpdates }
      else st3
    if score ≥ c.beta then
      let st5 :=
        if m.capture = false ∧ m.promote = NO_PIECE_TYPE ∧ c.inCheck = false then
          let st5a :=
            if st4.killer0 ≠ m then
              { st4 with killer1 := st4.killer0, killer0 := m }
            else st4
          let st5b := { st5a with hist := record_success st5a.hist c.lastMove m c.depth }
          { st5b with
            hist :=
              (List.range (st5b.searchedQuiets.length - 1)).foldl
                (fun h i => record_failure h (st5b.searchedQuiets.getD i NO_MOVE) c.depth)
                st5b.hist }
        else st4
      .ret c.beta { st5 with ttPuts := st5.ttPuts ++
        [⟨c.hash, m, c.depth, score_to_tt score c.ply, AT_LEAST⟩] }
    else .cont st4
  else .cont st2

/-- Follows the claim text for C5 (refinement reference): on a quiet-move
beta cutoff, reward the cutoff move with record_success and penalize with
record_failure exactly the quiet moves searched strictly before it. -/
def cutoff_history_spec (h : HistState) (lastMove : Move) (earlier : List Move)
    (m : Move) (d : Int) : HistState :=
  earlier.foldl (fun acc q => record_failure acc q d) (record_success h lastMove m d)

/-- Quiesce environment for the C1 evaluation: a quiet position, no draw,
no transposition hit, not in check, no candidate moves. -/
def c1env : QEnv := ⟨false, false, none, 0, false, 0, []⟩

/-- Claim C1: evaluation of the embedded code at ply = MAX_PLY.  The
clear_pv call performed at the top of both search and quiesce writes
pv_stack[ply + 1][ply + 1]; at ply = MAX_PLY = 127 the index 128 is out of
bounds for the 128-entry arrays, so both functions panic (`none`) before
reaching the `ply >= MAX_PLY` check instead of returning DRAW_SCORE as the
spec requires. -/
theorem c1_maxply_clear_pv_out_of_bounds :
    clear_pv pv0 MAX_PLY = none ∧
    search_prologue pv0 false false MAX_PLY 10 20 5 = none ∧
    quiesce_frame pv0 c1env MAX_PLY 10 20 0 = none := by
  refine ⟨rfl, rfl, rfl⟩

/-- Quiesce environment for the C2 counterexample: should_stop is already
true when the frame is entered, the position is not drawn and not in
check, the static eval is 50, there is no transposition hit and no
candidate move. -/
def c2env : QEnv := ⟨true, false, none, 50, false, 0, []⟩

/-- Counterexample for claim C2 as stated: quiesce performs no should_stop
check at its start.  Entered with should_stop already true (stopAtEntry),
the frame stands pat and returns beta = 20, not DRAW_SCORE = 0. -/
theorem c2_quiesce_entry_counterexample :
    c2env.stopAtEntry = true ∧
    (quiesce_frame pv0 c2env 3 10 20 0).map Prod.fst = some 20 ∧
    (20 : Int) ≠ DRAW_SCORE := by
  refine ⟨rfl, rfl, by decide⟩

/-- Helper: clear_pv succeeds exactly while both written diagonal entries
are inside the 128-entry arrays. -/
lemma clear_pv_isSome (pv : PvMat) (ply : Nat) (h : ply + 1 < PV_DIM) :
    ∃ pv1, clear_pv pv ply = some pv1 := by
  have h0 : ply < PV_DIM := by omega
  simp [clear_pv, pvWrite, h, h0]

/-- Claim C2 (amended): the stop flag is honored at the start of search
and immediately after each searched move of search and of quiesce: there
the functions return DRAW_SCORE, and the per-move bail-out performs no
update of the PV, the bounds, the best score, the killers, the history or
the transposition table (only the searched-move counters and the
searched-quiets buffer, written before the check, have advanced).  Quiesce
has no stop check at its start; the counterexample shows a stopped frame
returning a non-draw score. -/
theorem c2_stop_safe_points :
    (∀ (pv : PvMat) (d : Bool) (ply : Nat) (alpha beta depth : Int),
      ply + 1 < PV_DIM →
      search_prologue pv true d ply alpha beta depth = some (.ret DRAW_SCORE)) ∧
    (∀ (c : SCtx) (st : SState) (m : Move) (score : Int),
      (search_move_step c st m score true).retScore = some DRAW_SCORE ∧
      (search_move_step c st m score true).state.alpha = st.alpha ∧
      (search_move_step c st m score true).state.bestScore = st.bestScore ∧
      (search_move_step c st m score true).state.killer0 = st.killer0 ∧
      (search_move_step c st m score true).state.killer1 = st.killer1 ∧
      (search_move_step c st m score true).state.hist = st.hist ∧
      (search_move_step c st m score true).state.ttPuts = st.ttPuts ∧
      (search_move_step c st m score true).state.pvUpdates = st.pvUpdates) ∧
    (∀ (c : QCtx) (st : QState) (qm : QMove),
      ¬ q_prune_futility c st qm → ¬ q_prune_see c qm → qm.legal = true →
      qm.stopAfter = true →
      (quiesce_move_step c st qm).retScore = some DRAW_SCORE ∧
      (quiesce_move_step c st qm).state.alpha = st.alpha ∧
      (quiesce_move_step c st qm).state.bestScore = st.bestScore ∧
      (quiesce_move_step c st qm).state.ttPuts = st.ttPuts ∧
      (quiesce_move_step c st qm).state.pvUpdates = st.pvUpdates ∧
      (quiesce_move_step c st qm).state.numMoves = st.numMoves + 1) := by
  refine ⟨?_, ?_, ?_⟩
  · intro pv d ply alpha beta depth h
    obtain ⟨pv1, hc⟩ := clear_pv_isSome pv ply h
    simp [search_prologue, hc]
  · intro c st m score
    by_cases hq : (m.capture = false ∧ ¬ m.promote = QUEEN) ∧ st.searchedQuiets.length < 127 <;>
      simp [search_move_step, hq, SStepRes.retScore, SStepRes.state]
  · intro c st qm h1 h2 h3 h4
    have h3f : ¬ qm.legal = false := by simp [h3]
    simp [quiesce_move_step, h1, h2, h3f, h4, QStepRes.retScore, QStepRes.state]

/-- A quiet move with small distinct encodings, used by concrete
instances: piece index i / 64 + 1, to-square i % 64. -/
def mkQuiet (i : Nat) : Move := ⟨0, i % 64, i / 64 + 1, false, 0, false, false⟩

/-- Concrete search node context for witnesses. -/
def c2sctx : SCtx := ⟨1, 2, 30, false, false, NO_MOVE, 0⟩

/-- Concrete search loop state for the C2 witness. -/
def c2sst : SState := ⟨10, -100, NO_MOVE, NO_MOVE, NO_MOVE, histInit, [], [], 0, []⟩

/-- Concrete quiesce loop context for the C2 witness. -/
def c2qctx : QCtx := ⟨1, 0, 30, false, false, 5, 10, 0⟩

/-- Concrete quiesce loop state for the C2 witness. -/
def c2qst : QState := ⟨10, 5, NO_MOVE, [], [], 0⟩

/-- Concrete quiesce candidate for the C2 witness: a legal checking move
with see 0, polled stop true after its search. -/
def c2qm : QMove := ⟨mkQuiet 0, true, 0, true, 40, true⟩

/-- Witness for the amended C2 theorem at concrete inputs: a stopped
search prologue at ply 3 returns DRAW_SCORE; a stopped search move step
and a stopped quiesce move step return DRAW_SCORE without transposition
writes. -/
theorem c2_stop_safe_points_w :
    (3 + 1 < PV_DIM ∧
      search_prologue pv0 true false 3 10 20 5 = some (.ret DRAW_SCORE)) ∧
    ((search_move_step c2sctx c2sst (mkQuiet 0) 40 true).retScore = some DRAW_SCORE ∧
      (search_move_step c2sctx c2sst (mkQuiet 0) 40 true).state.ttPuts = c2sst.ttPuts) ∧
    (¬ q_prune_futility c2qctx c2qst c2qm ∧ ¬ q_prune_see c2qctx c2qm ∧
      c2qm.legal = true ∧ c2qm.stopAfter = true ∧
      (quiesce_move_step c2qctx c2qst c2qm).retScore = some DRAW_SCORE) :=
  ⟨⟨by decide, c2_stop_safe_points.1 pv0 false 3 10 20 5 (by decide)⟩,
   ⟨(c2_stop_safe_points.2.1 c2sctx c2sst (mkQuiet 0) 40).1,
    (c2_stop_safe_points.2.1 c2sctx c2sst (mkQuiet 0) 40).2.2.2.2.2.2.1⟩,
   ⟨by decide, by decide, rfl, rfl,
    (c2_stop_safe_points.2.2 c2qctx c2qst c2qm (by decide) (by decide) rfl rfl).1⟩⟩

/-- Helper: folding over the index range 0..l.length of a list extended on
the right visits exactly the elements of l, in order. -/
lemma foldl_range_getD {α β : Type} (g : β → α → β) (d : α) :
    ∀ (l post : List α) (b : β),
      (List.range l.length).foldl (fun acc i => g acc ((l ++ post).getD i d)) b =
        l.foldl g b := by
  intro l
  induction l using List.reverseRecOn with
  | nil => intro post b; simp
  | append_singleton l a ih =>
      intro post b
      simp only [List.length_append, List.length_singleton, List.range_succ,
        List.foldl_append, List.foldl_cons, List.foldl_nil, List.append_assoc]
      rw [ih ([a] ++ post) b]
      have hlast : (l ++ ([a] ++ post)).getD l.length d = a := by
        rw [List.getD_append_right _ _ _ _ (le_refl l.length)]
        simp
      rw [hlast]

/-- Claim C5 (amended): when search takes a beta cutoff on a non-capture,
non-promotion move with the side to move not in check, and at most 126
quiet moves were searched before the cutoff move (so the 127-entry
searched_quiets buffer has room), the step returns beta, installs the move
as killers[0] shifting the old killers[0] to killers[1] exactly when it
differs, and updates the history as the claim describes: record_success on
the cutoff move and record_failure on exactly the quiet moves searched
strictly before it, followed by the AT_LEAST transposition store.  (When
the buffer is already full the recorded quiets lose their last entry from
the penalty loop; see the counterexample.) -/
theorem c5_cutoff_bookkeeping (c : SCtx) (st : SState) (m : Move) (score : Int)
    (hcap : m.capture = false) (hpromo : m.promote = NO_PIECE_TYPE)
    (hchk : c.inCheck = false) (hbeta : c.beta ≤ score) (hbest : st.bestScore < score)
    (hlen : st.searchedQuiets.length ≤ 126) :
    (search_move_step c st m score false).retScore = some c.beta ∧
    (search_move_step c st m score false).state.killer0 = m ∧
    (search_move_step c st m score false).state.killer1 =
      (if st.killer0 = m then st.killer1 else st.killer0) ∧
    (search_move_step c st m score false).state.hist =
      cutoff_history_spec st.hist c.lastMove st.searchedQuiets m c.depth ∧
    (search_move_step c st m score false).state.ttPuts =
      st.ttPuts ++ [⟨c.hash, m, c.depth, score_to_tt score c.ply, AT_LEAST⟩] := by
  have hq : (m.capture = false ∧ ¬ m.promote = QUEEN) ∧ st.searchedQuiets.length < 127 := by
    refine ⟨⟨hcap, ?_⟩, by omega⟩
    rw [hpromo]
    decide
  have hcut : m.capture = false ∧ m.promote = NO_PIECE_TYPE ∧ c.inCheck = false :=
    ⟨hcap, hpromo, hchk⟩
  have hlen27 : st.searchedQuiets.length < 127 := by omega
  by_cases ha : st.alpha < score <;> by_cases hk : st.killer0 = m <;>
    simp [search_move_step, hcap, hpromo, hchk, hlen27, NO_PIECE_TYPE, QUEEN,
      hbest, ha, hk, ge_iff_le, hbeta, SStepRes.retScore, SStepRes.state] <;>
    simp only [← List.getD_eq_getElem?_getD] <;>
    exact foldl_range_getD (fun acc q => record_failure acc q c.depth) NO_MOVE
      st.searchedQuiets [m] (record_success st.hist c.lastMove m c.depth)

/-- The 127 quiet moves searched before the cutoff move in the C5
counterexample: they fill the searched_quiets buffer completely.
mkQuiet i has history index i + 64. -/
def c5quiets : List Move := (List.range 127).map mkQuiet

/-- The cutoff move of the C5 counterexample, the 128th searched quiet. -/
def c5m : Move := mkQuiet 127

/-- Node context of the C5 counterexample: zero-window non-root node at
ply 1, depth 2, beta 30, not in check. -/
def c5ctx : SCtx := ⟨1, 2, 30, false, false, NO_MOVE, 0⟩

/-- Loop state of the C5 counterexample just before the cutoff move: the
searched_quiets buffer holds all 127 earlier quiets. -/
def c5st : SState := ⟨10, -100, NO_MOVE, NO_MOVE, NO_MOVE, histInit, [], [], 127, c5quiets⟩

set_option maxRecDepth 8000 in
/-- Counterexample for claim C5 as stated: with the searched_quiets buffer
already full (127 earlier quiets), the cutoff move is not appended and the
`0..count-1` penalty loop spares the last stored quiet, mkQuiet 126: its
history entry (index 190) stays 0, while penalizing exactly the earlier
quiets (the claim, embodied by cutoff_history_spec) would set it to
-(2 * 2) = -4. -/
theorem c5_cutoff_counterexample :
    history_index (mkQuiet 126) = 190 ∧
    (search_move_step c5ctx c5st c5m 40 false).state.hist.history 190 = 0 ∧
    (cutoff_history_spec c5st.hist c5ctx.lastMove c5st.searchedQuiets c5m
      c5ctx.depth).history 190 = -4 ∧
    ((0 : Int) ≠ -4) := by
  refine ⟨by decide, by decide, by decide, by decide⟩

/-- Loop state for the C5 witness: one earlier searched quiet. -/
def c5wst : SState := ⟨10, -100, NO_MOVE, NO_MOVE, NO_MOVE, histInit, [], [], 1, [mkQuiet 0]⟩

/-- Witness for the amended C5 theorem at a concrete cutoff: quiet cutoff
move mkQuiet 1 with score 40 against beta 30, one earlier quiet. -/
theorem c5_cutoff_bookkeeping_w :
    (mkQuiet 1).capture = false ∧ (mkQuiet 1).promote = NO_PIECE_TYPE ∧
    c5ctx.inCheck = false ∧ c5ctx.beta ≤ 40 ∧ c5wst.bestScore < 40 ∧
    c5wst.searchedQuiets.length ≤ 126 ∧
    ((search_move_step c5ctx c5wst (mkQuiet 1) 40 false).retScore = some c5ctx.beta ∧
      (search_move_step c5ctx c5wst (mkQuiet 1) 40 false).state.killer0 = mkQuiet 1 ∧
      (search_move_step c5ctx c5wst (mkQuiet 1) 40 false).state.hist =
        cutoff_history_spec c5wst.hist c5ctx.lastMove c5wst.searchedQuiets (mkQuiet 1)
          c5ctx.depth) :=
  ⟨rfl, rfl, rfl, by decide, by decide, by decide,
   (c5_cutoff_bookkeeping c5ctx c5wst (mkQuiet 1) 40 rfl rfl rfl (by decide) (by decide)
     (by decide)).1,
   (c5_cutoff_bookkeeping c5ctx c5wst (mkQuiet 1) 40 rfl rfl rfl (by decide) (by decide)
     (by decide)).2.1,
   (c5_cutoff_bookkeeping c5ctx c5wst (mkQuiet 1) 40 rfl rfl rfl (by decide) (by decide)
     (by decide)).2.2.2.1⟩

/-- Embeds `WAITING_STATE` (src/search.rs line 82). -/
def WAITING_STATE : Nat := 0

/-- Embeds `SEARCHING_STATE` (src/search.rs line 83). -/
def SEARCHING_STATE : Nat := 1

/-- Embeds `PONDERING_STATE` (src/search.rs line 84). -/
def PONDERING_STATE : Nat := 2

/-- Embeds `STOPPING_STATE` (src/search.rs line 85). -/
def STOPPING_STATE : Nat := 3

/-- Program counter of a watchdog thread once its sleeps are over
(src/search.rs lines 352-360): about to load the engine state; state load
returned SEARCHING and about to load the generation; generation load
matched and about to store STOPPING; finished (silent exit or completed
store). -/
inductive WdPc where
  | start
  | s1
  | s2
  | done
deriving DecidableEq

/-- A watchdog thread: the generation it captured at spawn (`current_gen`
in the closure of src/search.rs line 347) and its program counter. -/
structure Wd where
  captured : Nat
  pc : WdPc
deriving DecidableEq

/-- Shared and thread-local state of the go / watchdog concurrency model:
the EngineState atom, the generation atom, the searcher position inside
its repeated go cycle, the searcher-local current_gen, and the spawned
watchdogs (indexed map plus spawn count). -/
structure Sys where
  st : Nat
  gen : Nat
  spc : Nat
  cur : Nat
  wds : Nat → Option Wd
  nwd : Nat

/-- The initial system: WAITING, generation 0, no watchdogs. -/
def sysInit : Sys := ⟨WAITING_STATE, 0, 0, 0, fun _ => none, 0⟩

/-- Interleaving semantics of the shared-state footprint of `go`
(src/search.rs lines 342-398) and its watchdogs.  Searcher actions per go
cycle: the generation fetch_add (line 347), the watchdog spawn capturing
current_gen (line 351), entering SEARCHING (line 364), and entering
WAITING when the search ends (line 398).  Watchdog actions after its
sleeps (lines 356-360): load the engine state (exit unless SEARCHING),
load the generation (exit unless it equals the captured one), store
STOPPING.  Every constructor is one atomic action, matching the SeqCst
atomics of the source; pondering and external stop commands are outside
claim C8 and not modelled. -/
inductive SysStep : Sys → Sys → Prop where
  | incGen (s : Sys) : s.spc = 0 →
      SysStep s { s with gen := s.gen + 1, cur := s.gen + 1, spc := 1 }
  | spawn (s : Sys) : s.spc = 1 →
      SysStep s { s with
        wds := fun j => if j = s.nwd then some ⟨s.cur, .start⟩ else s.wds j,
        nwd := s.nwd + 1,
        spc := 2 }
  | enterSearching (s : Sys) : s.spc = 2 →
      SysStep s { s with st := SEARCHING_STATE, spc := 3 }
  | enterWaiting (s : Sys) : s.spc = 3 →
      SysStep s { s with st := WAITING_STATE, spc := 0 }
  | wdStateOk (s : Sys) (i : Nat) (w : Wd) : s.wds i = some w → w.pc = .start →
      s.st = SEARCHING_STATE →
      SysStep s { s with
        wds := fun j => if j = i then some { w with pc := .s1 } else s.wds j }
  | wdStateFail (s : Sys) (i : Nat) (w : Wd) : s.wds i = some w → w.pc = .start →
      s.st ≠ SEARCHING_STATE →
      SysStep s { s with
        wds := fun j => if j = i then some { w with pc := .done } else s.wds j }
  | wdGenOk (s : Sys) (i : Nat) (w : Wd) : s.wds i = some w → w.pc = .s1 →
      s.gen = w.captured →
      SysStep s { s with
        wds := fun j => if j = i then some { w with pc := .s2 } else s.wds j }
  | wdGenFail (s : Sys) (i : Nat) (w : Wd) : s.wds i = some w → w.pc = .s1 →
      s.gen ≠ w.captured →
      SysStep s { s with
        wds := fun j => if j = i then some { w with pc := .done } else s.wds j }
  | wdWrite (s : Sys) (i : Nat) (w : Wd) : s.wds i = some w → w.pc = .s2 →
      SysStep s { s with
        st := STOPPING_STATE,
        wds := fun j => if j = i then some { w with pc := .done } else s.wds j }

/-- Reachability from the initial system under the interleaving
semantics. -/
def SysReach (s : Sys) : Prop := Relation.ReflTransGen SysStep sysInit s

/-- Trace configuration: search 1 begins, generation becomes 1. -/
def c8c1 : Sys := { sysInit with gen := sysInit.gen + 1, cur := sysInit.gen + 1, spc := 1 }

/-- Trace configuration: watchdog 0 spawned capturing generation 1. -/
def c8c2 : Sys := { c8c1 with
  wds := fun j => if j = c8c1.nwd then some ⟨c8c1.cur, .start⟩ else c8c1.wds j,
  nwd := c8c1.nwd + 1,
  spc := 2 }

/-- Trace configuration: state becomes SEARCHING for search 1. -/
def c8c3 : Sys := { c8c2 with st := SEARCHING_STATE, spc := 3 }

/-- Trace configuration: watchdog 0 passed its state check. -/
def c8c4 : Sys := { c8c3 with
  wds := fun j => if j = 0 then some { captured := 1, pc := WdPc.s1 } else c8c3.wds j }

/-- Trace configuration: watchdog 0 passed its generation check (the
shared generation is still 1 here). -/
def c8c5 : Sys := { c8c4 with
  wds := fun j => if j = 0 then some { captured := 1, pc := WdPc.s2 } else c8c4.wds j }

/-- Trace configuration: search 1 finishes, state becomes WAITING. -/
def c8c6 : Sys := { c8c5 with st := WAITING_STATE, spc := 0 }

/-- Trace configuration: search 2 begins, generation becomes 2. -/
def c8c7 : Sys := { c8c6 with gen := c8c6.gen + 1, cur := c8c6.gen + 1, spc := 1 }

/-- Trace configuration: watchdog 1 spawned capturing generation 2. -/
def c8c8 : Sys := { c8c7 with
  wds := fun j => if j = c8c7.nwd then some ⟨c8c7.cur, .start⟩ else c8c7.wds j,
  nwd := c8c7.nwd + 1,
  spc := 2 }

/-- Trace configuration: state becomes SEARCHING for search 2; the stale
watchdog 0 still sits between its passed checks and its write. -/
def c8c9 : Sys := { c8c8 with st := SEARCHING_STATE, spc := 3 }

/-- Trace configuration: the stale watchdog 0 stores STOPPING, aborting
search 2 although its captured generation 1 no longer equals the shared
generation 2. -/
def c8c10 : Sys := { c8c9 with
  st := STOPPING_STATE,
  wds := fun j => if j = 0 then some { captured := 1, pc := WdPc.done } else c8c9.wds j }

/-- Counterexample for claim C8 as stated: the configuration c8c9 is
reachable, in it watchdog 0 captured generation 1 while the shared
generation is 2 and the engine is SEARCHING for the newer search, and one
more step has that stale watchdog write STOPPING: the check-then-store of
the source is not atomic, so a watchdog whose captured generation no
longer matches can still stop a later search. -/
theorem c8_stale_watchdog_counterexample :
    SysReach c8c9 ∧
    SysStep c8c9 c8c10 ∧
    (c8c9.wds 0).map Wd.captured = some 1 ∧
    (c8c9.wds 0).map Wd.pc = some WdPc.s2 ∧
    c8c9.gen = 2 ∧ (1 : Nat) ≠ 2 ∧
    c8c9.st = SEARCHING_STATE ∧ c8c10.st = STOPPING_STATE := by
  refine ⟨?_, ?_, by decide, by decide, by decide, by decide, by decide, by decide⟩
  · have h1 : SysStep sysInit c8c1 := SysStep.incGen sysInit rfl
    have h2 : SysStep c8c1 c8c2 := SysStep.spawn c8c1 rfl
    have h3 : SysStep c8c2 c8c3 := SysStep.enterSearching c8c2 rfl
    have h4 : SysStep c8c3 c8c4 := SysStep.wdStateOk c8c3 0 ⟨1, .start⟩ (by decide) rfl rfl
    have h5 : SysStep c8c4 c8c5 := SysStep.wdGenOk c8c4 0 ⟨1, .s1⟩ (by decide) rfl (by decide)
    have h6 : SysStep c8c5 c8c6 := SysStep.enterWaiting c8c5 rfl
    have h7 : SysStep c8c6 c8c7 := SysStep.incGen c8c6 rfl
    have h8 : SysStep c8c7 c8c8 := SysStep.spawn c8c7 rfl
    have h9 : SysStep c8c8 c8c9 := SysStep.enterSearching c8c8 rfl
    exact ((((((((Relation.ReflTransGen.refl.tail h1).tail h2).tail h3).tail
      h4).tail h5).tail h6).tail h7).tail h8).tail h9
  · exact SysStep.wdWrite c8c9 0 ⟨1, .s2⟩ (by decide) rfl

/-- Claim C8 (amended): the generation guard holds at each atomic check,
not across the check-to-write gap.  In every step of the interleaving
semantics: the shared generation changes only when the searcher begins a
new go cycle; a watchdog advances to its write stage only at a step where
the shared generation equals its captured generation; and it advances past
its state check only at a step where the engine state is SEARCHING.  The
write itself is a separate atomic action, so a later search starting
in between can still be stopped (see the counterexample); the claim as
stated, that a stale watchdog never writes STOPPING, does not hold. -/
theorem c8_watchdog_generation :
    (∀ s t, SysStep s t → t.gen = s.gen ∨ (s.spc = 0 ∧ t.gen = s.gen + 1)) ∧
    (∀ s t i, SysStep s t → (s.wds i).map Wd.pc ≠ some WdPc.s2 →
      (t.wds i).map Wd.pc = some WdPc.s2 →
      (s.wds i).map Wd.captured = some s.gen ∧ (s.wds i).map Wd.pc = some WdPc.s1) ∧
    (∀ s t i, SysStep s t → (s.wds i).map Wd.pc ≠ some WdPc.s1 →
      (t.wds i).map Wd.pc = some WdPc.s1 →
      s.st = SEARCHING_STATE ∧ (s.wds i).map Wd.pc = some WdPc.start) := by
  refine ⟨?_, ?_, ?_⟩
  · intro s t hstep
    cases hstep with
    | incGen h => exact Or.inr ⟨h, rfl⟩
    | spawn h => exact Or.inl rfl
    | enterSearching h => exact Or.inl rfl
    | enterWaiting h => exact Or.inl rfl
    | wdStateOk k w hw hpc hst => exact Or.inl rfl
    | wdStateFail k w hw hpc hst => exact Or.inl rfl
    | wdGenOk k w hw hpc hgen => exact Or.inl rfl
    | wdGenFail k w hw hpc hgen => exact Or.inl rfl
    | wdWrite k w hw hpc => exact Or.inl rfl
  · intro s t i hstep hne heq
    cases hstep with
    | incGen h => exact absurd heq hne
    | spawn h =>
        rcases eq_or_ne i s.nwd with rfl | hni
        · simp at heq
        · simp [hni] at heq
          exact absurd (by simp [heq]) hne
    | enterSearching h => exact absurd heq hne
    | enterWaiting h => exact absurd heq hne
    | wdStateOk k w hw hpc hst =>
        rcases eq_or_ne i k with rfl | hni
        · simp at heq
        · simp [hni] at heq
          exact absurd (by simp [heq]) hne
    | wdStateFail k w hw hpc hst =>
        rcases eq_or_ne i k with rfl | hni
        · simp at heq
        · simp [hni] at heq
          exact absurd (by simp [heq]) hne
    | wdGenOk k w hw hpc hgen =>
        rcases eq_or_ne i k with rfl | hni
        · rw [hw]
          simp [hpc, hgen]
        · simp [hni] at heq
          exact absurd (by simp [heq]) hne
    | wdGenFail k w hw hpc hgen =>
        rcases eq_or_ne i k with rfl | hni
        · simp at heq
        · simp [hni] at heq
          exact absurd (by simp [heq]) hne
    | wdWrite k w hw hpc =>
        rcases eq_or_ne i k with rfl | hni
        · simp at heq
        · simp [hni] at heq
          exact absurd (by simp [heq]) hne
  · intro s t i hstep hne heq
    cases hstep with
    | incGen h => exact absurd heq hne
    | spawn h =>
        rcases eq_or_ne i s.nwd with rfl | hni
        · simp at heq
        · simp [hni] at heq
          exact absurd (by simp [heq]) hne
    | enterSearching h => exact absurd heq hne
    | enterWaiting h => exact absurd heq hne
    | wdStateOk k w hw hpc hst =>
        rcases eq_or_ne i k with rfl | hni
        · rw [hw]
          simp [hpc, hst]
        · simp [hni] at heq
          exact absurd (by simp [heq]) hne
    | wdStateFail k w hw hpc hst =>
        rcases eq_or_ne i k with rfl | hni
        · simp at heq
        · simp [hni] at heq
          exact absurd (by simp [heq]) hne
    | wdGenOk k w hw hpc hgen =>
        rcases eq_or_ne i k with rfl | hni
        · simp at heq
        · simp [hni] at heq
          exact absurd (by simp [heq]) hne
    | wdGenFail k w hw hpc hgen =>
        rcases eq_or_ne i k with rfl | hni
        · simp at heq
        · simp [hni] at heq
          exact absurd (by simp [heq]) hne
    | wdWrite k w hw hpc =>
        rcases eq_or_ne i k with rfl | hni
        · simp at heq
        · simp [hni] at heq
          exact absurd (by simp [heq]) hne

/-- Witness for the amended C8 theorem at the concrete trace: the
generation-check step from c8c4 to c8c5 moves watchdog 0 into its write
stage, and the theorem yields that at that moment the shared generation
equals its captured generation 1. -/
theorem c8_watchdog_generation_w :
    ((c8c4.wds 0).map Wd.pc ≠ some WdPc.s2 ∧
      (c8c5.wds 0).map Wd.pc = some WdPc.s2) ∧
    ((c8c4.wds 0).map Wd.captured = some c8c4.gen ∧
      (c8c4.wds 0).map Wd.pc = some WdPc.s1) :=
  ⟨⟨by decide, by decide⟩,
   c8_watchdog_generation.2.1 c8c4 c8c5 0
     (SysStep.wdGenOk c8c4 0 ⟨1, .s1⟩ (by decide) rfl (by decide))
     (by decide) (by decide)⟩
